import Mathlib

/-!
Shallow embedding of the reconciliation core of the data-stewardship
assistant: value normalization, field diffing, record insert/update,
affiliation commit, ranking fallback, and the web-research list
standardizer, together with theorems checking the specification's
claims against these definitions.
-/

namespace Steward

/-- Model of a dynamically-typed Python value as it occurs in the
records this code manipulates: `None`, float NaN, a string, or an
integer. -/
inductive PyVal where
  | pnone
  | pnan
  | pstr (s : String)
  | pint (n : Int)
  deriving DecidableEq, Repr

/-- Python's notion of a whitespace character for `str.strip()`
(space, tab, linefeed, carriage return, vertical tab, form feed). -/
def pySpace (c : Char) : Bool :=
  c = ' ' || c = '\t' || c = '\n' || c = '\r' || c = '\x0b' || c = '\x0c'

/-- Drop trailing characters satisfying `p` (strip from the right). -/
def dropRightWhileCh (p : Char → Bool) (l : List Char) : List Char :=
  ((l.reverse).dropWhile p).reverse

/-- Characters of a string after Python `str.strip()`. -/
def stripChars (l : List Char) : List Char :=
  dropRightWhileCh pySpace (l.dropWhile pySpace)

/-- Embedding of Python `str.strip()`. -/
def pyStrip (s : String) : String :=
  ⟨stripChars s.data⟩

/-- The decimal digit character for `n % 10`-style digits. -/
def digitCh (n : Nat) : Char :=
  match n with
  | 0 => '0' | 1 => '1' | 2 => '2' | 3 => '3' | 4 => '4'
  | 5 => '5' | 6 => '6' | 7 => '7' | 8 => '8' | _ => '9'

/-- Fuel-driven digit expansion (structural recursion so that the
kernel can evaluate it on concrete inputs). -/
def natCharsGo : Nat → Nat → List Char
  | 0, _ => []
  | fuel + 1, n => if n < 10 then [digitCh n] else natCharsGo fuel (n / 10) ++ [digitCh (n % 10)]

/-- Decimal digit characters of a natural number, most significant
first; models Python `str` on a non-negative `int`. -/
def natChars (n : Nat) : List Char :=
  natCharsGo (n + 1) n

/-- Embedding of Python `str` on an `int`. -/
def intStr (i : Int) : String :=
  if i < 0 then ⟨'-' :: natChars i.natAbs⟩ else ⟨natChars i.natAbs⟩

/-- Embedding of Python `str(val)` on a dynamic value. -/
def pyToStr (v : PyVal) : String :=
  match v with
  | .pnone => "None"
  | .pnan => "nan"
  | .pstr s => s
  | .pint n => intStr n

/-- Python truthiness of a dynamic value (`if val:`). -/
def pyTruthy (v : PyVal) : Bool :=
  match v with
  | .pnone => false
  | .pnan => true
  | .pstr s => s ≠ ""
  | .pint n => n ≠ 0

/-- `transform_current_record_for_comparison.get_val` applied to a
value already fetched from the record (src/components/comparison_table.py,
lines 274-278): `None`/NaN collapse to `"N/A"`, otherwise
`str(val).strip() if val else "N/A"` — note the truthiness test happens
on the raw value, before stripping. -/
def get_val_norm (v : PyVal) : String :=
  match v with
  | .pnone => "N/A"
  | .pnan => "N/A"
  | v => if pyTruthy v then pyStrip (pyToStr v) else "N/A"

/-- `get_safe_value`'s final normalization (src/components/detail_layout.py,
lines 40-44) applied to a value already fetched from the record:
`None`/NaN collapse to `'N/A'`, otherwise `str(value).strip()` and the
empty-after-strip result collapses to `'N/A'`. -/
def get_safe_value_norm (v : PyVal) : String :=
  match v with
  | .pnone => "N/A"
  | .pnan => "N/A"
  | v =>
    let str_value := pyStrip (pyToStr v)
    if str_value ≠ "" then str_value else "N/A"

/-- Domain on which the comparison-table variant of the normalizer
acts idempotently: every value except a non-empty string that strips
to the empty string. -/
def get_val_idem_domain (v : PyVal) : Prop :=
  match v with
  | .pstr s => s = "" ∨ pyStrip s ≠ ""
  | _ => True

/- ### Embedding of src/utils/record_operations.py -/

/-- `dict.get(k)` on an association list (first binding wins). -/
def dictGet? {α : Type} (d : List (String × α)) (k : String) : Option α :=
  (d.find? (fun p => p.1 = k)).map (fun p => p.2)

/-- `dict.get(k, default)` on an association list. -/
def dictGetD {α : Type} (d : List (String × α)) (k : String) (dflt : α) : α :=
  (dictGet? d k).getD dflt

/-- A value stored in the warehouse: SQL NULL, a string, a number, or
a stored floating NaN. -/
inductive SqlVal where
  | null
  | str (v : String)
  | int (n : Int)
  | nanv
  deriving DecidableEq, Repr

/-- A stored row: column name to value bindings. -/
abbrev Row := List (String × SqlVal)

/-- The warehouse state: the `NPI` (Provider) table and the `HCO`
(Organization) table. -/
structure DB where
  npiTab : List Row
  hcoTab : List Row
  deriving DecidableEq, Repr

/-- `HCP_FIELD_MAPPING` from src/utils/record_operations.py. -/
def HCP_FIELD_MAPPING : List (String × String) :=
  [("Name", "NAME"), ("First Name", "FIRST_NM"), ("Last Name", "LAST_NM"),
   ("NPI", "NPI"), ("Degree", "DEGREE"),
   ("Address Line1", "ADDRESS1"), ("Address Line 1", "ADDRESS1"),
   ("Address Line2", "ADDRESS2"), ("Address Line 2", "ADDRESS2"),
   ("City", "CITY"), ("State", "STATE"), ("ZIP", "ZIP"), ("ZIP Code", "ZIP")]

/-- `HCO_FIELD_MAPPING` from src/utils/record_operations.py. -/
def HCO_FIELD_MAPPING : List (String × String) :=
  [("Name", "NAME"),
   ("Address Line1", "ADDRESS1"), ("Address Line 1", "ADDRESS1"),
   ("Address Line2", "ADDRESS2"), ("Address Line 2", "ADDRESS2"),
   ("City", "CITY"), ("State", "STATE"), ("ZIP", "ZIP"), ("ZIP Code", "ZIP"),
   ("Country", "COUNTRY")]

/-- `get_field_to_db_mapping` from src/utils/record_operations.py. -/
def get_field_to_db_mapping (entity_type : String) : List (String × String) :=
  if entity_type = "HCP" then HCP_FIELD_MAPPING else HCO_FIELD_MAPPING

/-- The assignment-building loop shared by `insert_record` and
`update_record` (src/utils/record_operations.py, lines 78-90 and
178-191): resolve each approved display label through the column map,
skip labels with no (or falsy) column, fetch the proposed value
(`None` when missing), and keep only the first occurrence of each
database column. The result lists `(db_col, value)` in `columns_list`
order. -/
def build_assignments (db_column_map : List (String × String))
    (approved_cols : List String)
    (proposed_record : List (String × PyVal)) : List (String × PyVal) :=
  approved_cols.foldl (fun acc col_name =>
    match dictGet? db_column_map col_name with
    | some db_col =>
      if db_col ≠ "" ∧ (acc.find? (fun p => p.1 = db_col)).isNone then
        acc ++ [(db_col, (dictGet? proposed_record col_name).getD .pnone)]
      else acc
    | none => acc) []

/-- Python `repr` of a list of strings, as an f-string renders it. -/
def pyListRepr (l : List String) : String :=
  "[" ++ String.intercalate ", " (l.map (fun s => "'" ++ s ++ "'")) ++ "]"

/-- ASCII upper-casing of a character (Python `str.upper` on the
ASCII values this code sees). -/
def chUpper (c : Char) : Char :=
  if 'a' ≤ c ∧ c ≤ 'z' then Char.ofNat (c.toNat - 32) else c

/-- ASCII upper-casing of a string. -/
def asciiUpper (s : String) : String :=
  ⟨s.data.map chUpper⟩

/-- The COUNTRY special case of the insert value rendering
(src/utils/record_operations.py, lines 128-130). -/
def country_code (v : String) : String :=
  let u := asciiUpper v
  if u = "USA" ∨ u = "UNITED STATES" ∨ u = "UNITED STATES OF AMERICA" then "US"
  else ⟨v.data.take 2⟩

/-- Value rendering for a non-ID column on the INSERT path
(src/utils/record_operations.py, lines 120-133): `None`, values whose
stringification strips to empty, and the literal `"N/A"` become SQL
NULL; COUNTRY values go through the country map; everything else is
stored as its string form. -/
def render_insert_val (col : String) (val : PyVal) : SqlVal :=
  if val ≠ .pnone ∧ pyStrip (pyToStr val) ≠ "" ∧ pyToStr val ≠ "N/A" then
    if col = "COUNTRY" then .str (country_code (pyToStr val)) else .str (pyToStr val)
  else .null

/-- Numeric ids present in the `NPI` table's ID column (`MAX(ID)`
ignores NULLs). -/
def npi_ids (db : DB) : List Int :=
  db.npiTab.filterMap (fun r =>
    match dictGet? r "ID" with
    | some (SqlVal.int n) => some n
    | _ => none)

/-- `COALESCE(MAX(ID), 0)` over the `NPI` table followed by the
Python `... if ... else 0` falsy collapse (which is the identity on
the coalesced value). -/
def npi_max_id (db : DB) : Int :=
  ((npi_ids db).max?).getD 0

/-- SQL `ID LIKE 'SHA_%'`: the `_` wildcard matches exactly one
character and `%` any tail, so this holds iff the id starts with
`"SHA"` and has at least four characters. -/
def like_SHA (id : String) : Bool :=
  id.data.take 3 = ['S', 'H', 'A'] && id.data.length ≥ 4

/-- SQL `REPLACE(ID, 'SHA_', '')`: delete every occurrence of
`"SHA_"`, scanning left to right. -/
def removeSHA : List Char → List Char
  | [] => []
  | 'S' :: 'H' :: 'A' :: '_' :: rest => removeSHA rest
  | c :: rest => c :: removeSHA rest

/-- Value of a decimal digit character. -/
def digitVal (c : Char) : Option Nat :=
  if 48 ≤ c.toNat ∧ c.toNat ≤ 57 then some (c.toNat - 48) else none

/-- Digits-only parse of a character list. -/
def parseDigits (l : List Char) : Option Nat :=
  l.foldl (fun acc c =>
    match acc, digitVal c with
    | some a, some d => some (a * 10 + d)
    | _, _ => none) (some 0)

/-- SQL `CAST(s AS INTEGER)`: optional surrounding spaces and sign,
then at least one digit; anything else errors (`none`). -/
def sqlCastInt (s : String) : Option Int :=
  match stripChars s.data with
  | [] => none
  | '-' :: rest => if rest = [] then none else (parseDigits rest).map (fun n => -(n : Int))
  | '+' :: rest => if rest = [] then none else (parseDigits rest).map (fun n => (n : Int))
  | l => (parseDigits l).map (fun n => (n : Int))

/-- String ids present in the `HCO` table's ID column. -/
def hco_ids (db : DB) : List String :=
  db.hcoTab.filterMap (fun r =>
    match dictGet? r "ID" with
    | some (SqlVal.str v) => some v
    | _ => none)

/-- The `MAX(CAST(REPLACE(ID, 'SHA_', '') AS INTEGER)) ... WHERE ID
LIKE 'SHA_%'` query (src/utils/record_operations.py, lines 105-109):
outer `none` models the query erroring (a CAST failure), inner
`Option` is SQL MAX's NULL-on-empty. -/
def hco_max_query (db : DB) : Option (Option Int) :=
  let matched := (hco_ids db).filter like_SHA
  let parsed := matched.map (fun v => sqlCastInt ⟨removeSHA v.data⟩)
  if parsed.all Option.isSome then some ((parsed.filterMap id).max?) else none

/-- Python `str.zfill(w)`: left-pad with zeros to width `w`, keeping
a leading sign in front. -/
def zfill (w : Nat) (s : String) : String :=
  match s.data with
  | '-' :: rest => ⟨'-' :: (List.replicate (w - (rest.length + 1)) '0' ++ rest)⟩
  | '+' :: rest => ⟨'+' :: (List.replicate (w - (rest.length + 1)) '0' ++ rest)⟩
  | l => ⟨List.replicate (w - l.length) '0' ++ l⟩

/-- A generated record identifier: an integer for Providers, a string
for Organizations. -/
inductive RecId where
  | rint (n : Int)
  | rstr (s : String)
  deriving DecidableEq, Repr

/-- String form of a generated id as an f-string renders it. -/
def recIdStr : RecId → String
  | .rint n => intStr n
  | .rstr s => s

/-- `insert_record` from src/utils/record_operations.py: empty
approved set and empty resolved-column set fail without touching
storage; otherwise a new id is generated per entity kind (Providers:
`COALESCE(MAX(ID),0) + 1`; Organizations:
`'AISEARCH_' + str(max_SHA_suffix + 1).zfill(9)`), a row with the ID
and the rendered approved values is appended, and the new id is
returned. -/
def insert_record (db : DB) (entity_type : String)
    (approved_cols : List String)
    (proposed_record : List (String × PyVal)) :
    (Bool × Option RecId × String) × DB :=
  if approved_cols = [] then
    ((false, none, "No fields were selected for insert."), db)
  else
    let db_column_map := get_field_to_db_mapping entity_type
    let assignments := build_assignments db_column_map approved_cols proposed_record
    if assignments = [] then
      ((false, none, "No valid columns found for insert. Approved: " ++
        pyListRepr approved_cols), db)
    else
      let cols_str := String.intercalate ", " ("ID" :: assignments.map Prod.fst)
      if entity_type = "HCP" then
        let new_id : Int := npi_max_id db + 1
        let row : Row := ("ID", .int new_id) ::
          assignments.map (fun a => (a.1, render_insert_val a.1 a.2))
        ((true, some (.rint new_id),
          "New record inserted successfully with ID: " ++ intStr new_id ++
            ". Columns: " ++ cols_str ++ "."),
         { db with npiTab := db.npiTab ++ [row] })
      else
        match hco_max_query db with
        | none => ((false, none, "Error inserting record: CAST failed."), db)
        | some m =>
          let max_num : Int := m.getD 0
          let new_id : String := "AISEARCH_" ++ zfill 9 (intStr (max_num + 1))
          let row : Row := ("ID", .str new_id) ::
            assignments.map (fun a => (a.1, render_insert_val a.1 a.2))
          ((true, some (.rstr new_id),
            "New record inserted successfully with ID: " ++ new_id ++
              ". Columns: " ++ cols_str ++ "."),
           { db with hcoTab := db.hcoTab ++ [row] })

/-- Conversion of a Python value handed to Snowpark `update` into a
stored value. -/
def pyToSql : PyVal → SqlVal
  | .pnone => .null
  | .pnan => .nanv
  | .pstr s => .str s
  | .pint n => .int n

/-- SQL equality used by `col("ID") == record_id`: NULL (and NaN)
never compares equal. -/
def sqlEq (a b : SqlVal) : Bool :=
  match a, b with
  | .null, _ => false
  | _, .null => false
  | .nanv, _ => false
  | _, .nanv => false
  | x, y => x = y

/-- Whether a row's ID column matches the update predicate. -/
def row_matches_id (r : Row) (idv : SqlVal) : Bool :=
  match dictGet? r "ID" with
  | some v => sqlEq v idv
  | none => false

/-- Set one column of a row (overwriting an existing binding in
place, appending otherwise). -/
def setCol (r : Row) (k : String) (v : SqlVal) : Row :=
  if (r.find? (fun p => p.1 = k)).isSome then
    r.map (fun p => if p.1 = k then (k, v) else p)
  else r ++ [(k, v)]

/-- Apply the update's assignment dict to one row. -/
def apply_assignments (r : Row) (assignments : List (String × PyVal)) : Row :=
  assignments.foldl (fun row kv => setCol row kv.1 (pyToSql kv.2)) r

/-- The table `update_record` targets for an entity kind. -/
def target_table (db : DB) (entity_type : String) : List Row :=
  if entity_type = "HCP" then db.npiTab else db.hcoTab

/-- `update_record` from src/utils/record_operations.py: empty
approved set and empty resolved-column set fail without touching
storage; otherwise the approved assignments are written to every row
whose ID matches and the affected-row count decides between success
and the not-found failure. -/
def update_record (db : DB) (entity_type : String) (record_id : PyVal)
    (approved_cols : List String)
    (proposed_record : List (String × PyVal)) :
    (Bool × String) × DB :=
  if approved_cols = [] then
    ((false, "No fields were selected for update."), db)
  else
    let assignments := build_assignments (get_field_to_db_mapping entity_type)
      approved_cols proposed_record
    if assignments = [] then
      ((false, "No valid columns found for update. Approved: " ++
        pyListRepr approved_cols), db)
    else
      let tab := target_table db entity_type
      let idv := pyToSql record_id
      let rows_updated := (tab.filter (fun r => row_matches_id r idv)).length
      let newTab := tab.map (fun r =>
        if row_matches_id r idv then apply_assignments r assignments else r)
      let db' := if entity_type = "HCP" then { db with npiTab := newTab }
                 else { db with hcoTab := newTab }
      if rows_updated > 0 then
        ((true, "Record for ID: " ++ pyToStr record_id ++
          " updated successfully. Changed columns: " ++
          String.intercalate ", " (assignments.map Prod.fst) ++ "."), db')
      else
        ((false, "Record for ID " ++ pyToStr record_id ++
          " was not found for update."), db')

/- ### Embedding of src/utils/cortex_llm.py (ranking fallback) -/

/-- Python dict assignment `d[k] = v` on an association list: update
the binding in place when the key exists, append otherwise. -/
def dictSet {α : Type} (d : List (String × α)) (k : String) (v : α) :
    List (String × α) :=
  if (d.find? (fun p => p.1 = k)).isSome then
    d.map (fun p => if p.1 = k then (k, v) else p)
  else d ++ [(k, v)]

/-- The fixed reason attached by the ranking fallback. -/
def defaultOrderingReason : String := "Default ordering (LLM unavailable)"

/-- The `except` fallback shared by `get_affiliation_priorities_from_cortex_llm`
(src/utils/cortex_llm.py, lines 149-153) and
`get_affiliation_priorities_from_llm` (lines 263-272): a dict mapping
each affiliation key to priority `idx + 1` (its 1-based position in
the input's iteration order) with the fixed default-ordering reason. -/
def default_priorities {α : Type} (affiliations : List (String × α)) :
    List (String × Nat × String) :=
  (affiliations.enum).foldl
    (fun m p => dictSet m p.2.1 (p.1 + 1, defaultOrderingReason)) []

/-- `get_affiliation_priorities_from_llm` (and its Cortex twin) from
src/utils/cortex_llm.py: an empty candidate list short-circuits to an
empty map; otherwise exactly one attempt is made against the ranking
service — modelled by the `attempt` argument, where `none` stands for
any service error or unparseable response (every such failure raises
into the single `except` block) — and on failure the deterministic
fallback is returned. There is no retry: the `except` block (after a
fixed sleep in the OpenAI variant) returns directly. -/
def get_affiliation_priorities {α : Type}
    (attempt : Option (List (String × Nat × String)))
    (affiliations : List (String × α)) : List (String × Nat × String) :=
  if affiliations.isEmpty then []
  else
    match attempt with
    | some priority_map => priority_map
    | none => default_priorities affiliations

/- ### Embedding of the comparison-row loop of
src/components/comparison_table.py -/

/-- The `None`/empty-string collapse applied to a fetched cell value
(`if val is None or val == "": val = "N/A"`). -/
def none_to_na (v : PyVal) : PyVal :=
  if v = .pnone ∨ v = .pstr "" then PyVal.pstr "N/A" else v

/-- One cell of the comparison table: `record.get(col_name, "N/A")`
guarded by the record's truthiness, with `None` and the empty string
collapsing to `"N/A"` afterwards. -/
def comparison_cell (record : List (String × PyVal)) (col_name : String) : PyVal :=
  none_to_na (if record = [] then PyVal.pstr "N/A"
    else (dictGet? record col_name).getD (PyVal.pstr "N/A"))

/-- One `(label, current, proposed)` row of the comparison table. -/
def comparison_row (current_record proposed_record : List (String × PyVal))
    (fm : String × String) : String × PyVal × PyVal :=
  (fm.1, comparison_cell current_record fm.2, comparison_cell proposed_record fm.2)

/-- The data-row loop of `render_comparison_table`
(src/components/comparison_table.py, lines 85-92), stripped of the
rendering calls: one `(label, current, proposed)` row per
field-mapping entry, in mapping order; a falsy record, a missing key,
`None`, and the empty string all collapse to `"N/A"`. -/
def render_comparison_rows (current_record proposed_record : List (String × PyVal))
    (field_mapping : List (String × String)) :
    List (String × PyVal × PyVal) :=
  field_mapping.map (comparison_row current_record proposed_record)

/- ### Embedding of standardize_value_lengths from src/utils/perplexity.py -/

/-- A value in the web-research response dictionary: a list of
items or a non-list scalar. -/
inductive PerpVal where
  | plist (items : List PyVal)
  | patom (v : PyVal)
  deriving DecidableEq, Repr

/-- Lengths of the non-empty list values
(`[v for v in dictionary.values() if isinstance(v, list) and len(v) > 0]`). -/
def valid_list_lengths (dictionary : List (String × PerpVal)) : List Nat :=
  dictionary.filterMap (fun kv =>
    match kv.2 with
    | .plist l => if l.length > 0 then some l.length else none
    | _ => none)

/-- `max(len(v) for v in valid_lists)`. -/
def max_list_length (dictionary : List (String × PerpVal)) : Nat :=
  (valid_list_lengths dictionary).foldl max 0

/-- The per-entry padding step of `standardize_value_lengths`: an
empty list becomes `[None] * max_length`, a shorter non-empty list is
extended with copies of its own first element, and anything else is
left alone. -/
def pad_entry (max_length : Nat) (kv : String × PerpVal) : String × PerpVal :=
  match kv.2 with
  | .patom _ => kv
  | .plist [] => (kv.1, PerpVal.plist (List.replicate max_length PyVal.pnone))
  | .plist (a :: t) =>
    if (a :: t).length < max_length then
      (kv.1, PerpVal.plist ((a :: t) ++
        List.replicate (max_length - (a :: t).length) a))
    else kv

/-- `standardize_value_lengths` from src/utils/perplexity.py
(lines 220-244): when at least one non-empty list value exists, pad
every list value to the maximum length — an empty list with `None`
entries, a shorter non-empty list by repeating its own first
element — leaving non-list values alone; with no non-empty list
values the dictionary is returned unchanged. -/
def standardize_value_lengths (dictionary : List (String × PerpVal)) :
    List (String × PerpVal) :=
  if valid_list_lengths dictionary = [] then dictionary
  else dictionary.map (pad_entry (max_list_length dictionary))

/- ### Embedding of src/utils/affiliation_updates.py -/

/-- Python `str.startswith`. -/
def strStartsWith (s pre : String) : Bool :=
  pre.data.isPrefixOf s.data

/-- ASCII lower-casing of a character (Python `str.lower` on the
ASCII values this code sees). -/
def chLower (c : Char) : Char :=
  if 'A' ≤ c ∧ c ≤ 'Z' then Char.ofNat (c.toNat + 32) else c

/-- ASCII lower-casing of a string. -/
def asciiLower (s : String) : String :=
  ⟨s.data.map chLower⟩

/-- A row of the `HCP_HCO_AFFILIATION` table, with the columns the
insert statement writes. -/
structure AffRow where
  acctId : Option String
  npi : String
  hcoId : String
  name : String
  addr1 : String
  city : String
  state : String
  zip : String
  deriving DecidableEq, Repr

/-- A row of the `OUTLET_HCO_AFFILIATION` table. -/
structure OutletRow where
  hcoId : String
  outletId : Int
  name : String
  addr1 : String
  city : String
  state : String
  zip : String
  deriving DecidableEq, Repr

/-- The storage state the affiliation-commit flow touches: the two
affiliation tables plus the `NPI` and `HCO` entity tables. -/
structure StewState where
  affTab : List AffRow
  outletTab : List OutletRow
  npiTab : List Row
  hcoTab : List Row
  deriving DecidableEq, Repr

/-- Rows of `HCP_HCO_AFFILIATION` matching an (entity NPI, HCO id)
pair — the `SELECT COUNT(*) ... WHERE HCP_NPI = ... AND HCO_ID = ...`
count. -/
def count_affiliations (s : StewState) (hcp_npi hco_id : String) : Nat :=
  (s.affTab.filter (fun r => r.npi = hcp_npi ∧ r.hcoId = hco_id)).length

/-- `check_affiliation_exists` from src/utils/affiliation_updates.py
(lines 7-24): falsy arguments short-circuit to `False`; otherwise the
count of rows for the (NPI, HCO id) pair is compared with zero. -/
def check_affiliation_exists (s : StewState) (hcp_npi hco_id : String) : Bool :=
  if hcp_npi = "" ∨ hco_id = "" then false
  else count_affiliations s hcp_npi hco_id > 0

/-- `COALESCE(MAX(TRY_TO_NUMBER(HCO_ID)), 0)` over
`HCP_HCO_AFFILIATION` restricted to numeric ids, followed by the
Python falsy collapse (the identity on the coalesced value). -/
def aff_max_id (s : StewState) : Int :=
  ((s.affTab.filterMap (fun r => sqlCastInt r.hcoId)).max?).getD 0

/-- Result of `insert_hcp_affiliation_record`: the resolved HCO id
(the generate-condition return of line 83), the plain `True` return,
or the failure return (the `except` path, reached when the unquoted
`HCP_ACCT_ID` interpolation of line 71 breaks the statement; the
Python then returns `None` when `generate_new_id` and `False`
otherwise, with no row inserted). -/
inductive HcpInsResult where
  | newId (hcoId : String)
  | ok
  | failed
  deriving DecidableEq, Repr

/-- `insert_hcp_affiliation_record` from
src/utils/affiliation_updates.py (lines 27-88): resolve the HCO id
from the data (regenerating it as `max numeric id + 1` when a new id
is requested, the id carries the `ai_generated_` marker, or the id is
falsy), append the row, and return the id exactly when the generate
condition of line 83 holds (`ok` models the plain `True` return).
`HCP_ACCT_ID` is interpolated unquoted (line 71), so a truthy
`hcp_id` that is not a numeric literal makes the INSERT raise: the
`except` returns `failed` and no row is inserted. -/
def insert_hcp_affiliation_record (s : StewState) (hcp_id hcp_npi : String)
    (hco_data : List (String × String)) (generate_new_id : Bool) :
    HcpInsResult × StewState :=
  let hco_id0 := dictGetD hco_data "HCO ID" (dictGetD hco_data "HCO_ID" "")
  let hco_id := if generate_new_id || strStartsWith hco_id0 "ai_generated_" ||
      hco_id0 = "" then intStr (aff_max_id s + 1) else hco_id0
  if hcp_id ≠ "" ∧ sqlCastInt hcp_id = none then (.failed, s)
  else
    let row : AffRow :=
      { acctId := if hcp_id = "" then none else some hcp_id
        npi := hcp_npi
        hcoId := hco_id
        name := dictGetD hco_data "HCO NAME" (dictGetD hco_data "HCO_Name" "")
        addr1 := dictGetD hco_data "HCO ADDRESS" (dictGetD hco_data "HCO_Address1" "")
        city := dictGetD hco_data "HCO CITY" (dictGetD hco_data "HCO_City" "")
        state := dictGetD hco_data "HCO STATE" (dictGetD hco_data "HCO_State" "")
        zip := dictGetD hco_data "HCO ZIP" (dictGetD hco_data "HCO_ZIP" "") }
    let s' := { s with affTab := s.affTab ++ [row] }
    if generate_new_id || strStartsWith
        (dictGetD hco_data "HCO ID" (dictGetD hco_data "HCO_ID" ""))
        "ai_generated_" then
      (.newId hco_id, s')
    else (.ok, s')

/-- Result of `insert_hco_affiliation_record`: the generated outlet
id, the plain `True` return, or the failure return (a non-numeric
outlet id breaks the unquoted SQL interpolation). -/
inductive OutletInsResult where
  | newId (outletId : Int)
  | ok
  | failed
  deriving DecidableEq, Repr

/-- `COALESCE(MAX(OUTLET_ID), 0)` over `OUTLET_HCO_AFFILIATION`,
followed by the Python falsy collapse (the identity). -/
def outlet_max_id (s : StewState) : Int :=
  ((s.outletTab.map (fun r => r.outletId)).max?).getD 0

/-- `insert_hco_affiliation_record` from
src/utils/affiliation_updates.py (lines 91-149). -/
def insert_hco_affiliation_record (s : StewState) (hco_id : String)
    (outlet_data : List (String × String)) (generate_new_id : Bool) :
    OutletInsResult × StewState :=
  let outlet_id0 := dictGetD outlet_data "HCO ID"
    (dictGetD outlet_data "HCO_ID" (dictGetD outlet_data "OUTLET_ID" ""))
  let oidOpt : Option Int :=
    if generate_new_id || strStartsWith outlet_id0 "ai_generated_" ||
        outlet_id0 = "" then some (outlet_max_id s + 1)
    else sqlCastInt outlet_id0
  match oidOpt with
  | none => (.failed, s)
  | some outlet_id =>
    let row : OutletRow :=
      { hcoId := hco_id
        outletId := outlet_id
        name := dictGetD outlet_data "HCO NAME"
          (dictGetD outlet_data "HCO_Name" (dictGetD outlet_data "OUTLET_NAME" ""))
        addr1 := dictGetD outlet_data "HCO ADDRESS"
          (dictGetD outlet_data "HCO_Address1" (dictGetD outlet_data "OUTLET_ADDRESS1" ""))
        city := dictGetD outlet_data "HCO CITY"
          (dictGetD outlet_data "HCO_City" (dictGetD outlet_data "OUTLET_CITY" ""))
        state := dictGetD outlet_data "HCO STATE"
          (dictGetD outlet_data "HCO_State" (dictGetD outlet_data "OUTLET_STATE" ""))
        zip := dictGetD outlet_data "HCO ZIP"
          (dictGetD outlet_data "HCO_ZIP" (dictGetD outlet_data "OUTLET_ZIP" "")) }
    let s' := { s with outletTab := s.outletTab ++ [row] }
    if generate_new_id || strStartsWith
        (dictGetD outlet_data "HCO ID" (dictGetD outlet_data "HCO_ID" ""))
        "ai_generated_" then
      (.newId outlet_id, s')
    else (.ok, s')

/-- `update_hcp_primary_affiliation` from
src/utils/affiliation_updates.py (lines 152-171): set
`PRIMARY_AFFL_HCO_ACCOUNT_ID` on the matching `NPI` rows and report
whether any row was updated. -/
def update_hcp_primary_affiliation (s : StewState) (hcp_id hco_id : PyVal) :
    Bool × StewState :=
  let idv := pyToSql hcp_id
  let updated := (s.npiTab.filter (fun r => row_matches_id r idv)).length
  let newTab := s.npiTab.map (fun r =>
    if row_matches_id r idv then
      setCol r "PRIMARY_AFFL_HCO_ACCOUNT_ID" (pyToSql hco_id)
    else r)
  (updated > 0, { s with npiTab := newTab })

/-- `update_hco_primary_affiliation` from
src/utils/affiliation_updates.py (lines 174-193). -/
def update_hco_primary_affiliation (s : StewState) (hco_id outlet_id : PyVal) :
    Bool × StewState :=
  let idv := pyToSql hco_id
  let updated := (s.hcoTab.filter (fun r => row_matches_id r idv)).length
  let newTab := s.hcoTab.map (fun r =>
    if row_matches_id r idv then
      setCol r "PRIMARY_AFFL_ACCOUNT_ID" (pyToSql outlet_id)
    else r)
  (updated > 0, { s with hcoTab := newTab })

/-- The common tail of the HCP branch of `set_primary_affiliation`
(src/utils/affiliation_updates.py, lines 246-250): update the pointer
and build the result tuple. -/
def hcp_pointer_update (s : StewState) (selected_id : PyVal)
    (final_hco_id : String) : (Bool × Option PyVal × String) × StewState :=
  let r := update_hcp_primary_affiliation s selected_id (.pstr final_hco_id)
  if r.1 then
    ((true, some (.pstr final_hco_id),
      "Primary affiliation updated to HCO ID: " ++ final_hco_id), r.2)
  else ((false, none, "Could not update the primary affiliation."), r.2)

/-- The common tail of the HCO branch of `set_primary_affiliation`
(src/utils/affiliation_updates.py, lines 262-266). -/
def hco_pointer_update (s : StewState) (selected_id final_id : PyVal) :
    (Bool × Option PyVal × String) × StewState :=
  let r := update_hco_primary_affiliation s selected_id final_id
  if r.1 then
    ((true, some final_id,
      "Primary affiliation updated to ID: " ++ pyToStr final_id), r.2)
  else ((false, none, "Could not update the primary affiliation."), r.2)

/-- `set_primary_affiliation` from src/utils/affiliation_updates.py
(lines 196-266): for an AI-sourced candidate insert a fresh
affiliation row (with a newly generated id, no existence check); for
a database-sourced candidate on the new-record path insert the link
only if the (NPI, HCO id) pair does not already exist; then overwrite
the entity's primary-affiliation pointer. -/
def set_primary_affiliation (s : StewState) (entity_type : String)
    (selected_record : List (String × PyVal))
    (hco_data : List (String × String)) (hco_id : String)
    (is_new_record : Bool) : (Bool × Option PyVal × String) × StewState :=
  let selected_id := dictGetD selected_record "ID" (.pstr "")
  let is_ai_generated := strStartsWith hco_id "ai_generated_" ||
    (dictGet? hco_data "SOURCE" == some "Generated by AI") ||
    (asciiLower (dictGetD hco_data "SOURCE" "") == "generated by ai")
  if entity_type = "HCP" then
    let hcp_npi := dictGetD selected_record "NPI" (.pstr "")
    if is_ai_generated && !hco_data.isEmpty then
      match insert_hcp_affiliation_record s (pyToStr selected_id)
          (pyToStr hcp_npi) hco_data true with
      | (.newId new_hco_id, s1) => hcp_pointer_update s1 selected_id new_hco_id
      | (.ok, s1) => hcp_pointer_update s1 selected_id hco_id
      | (.failed, s1) =>
        ((false, none, "Failed to create affiliation record."), s1)
    else if is_new_record && !hco_data.isEmpty then
      let s1 := if !check_affiliation_exists s (pyToStr hcp_npi) hco_id then
          (insert_hcp_affiliation_record s (pyToStr selected_id)
            (pyToStr hcp_npi) hco_data false).2
        else s
      hcp_pointer_update s1 selected_id hco_id
    else
      hcp_pointer_update s selected_id hco_id
  else
    if is_ai_generated && !hco_data.isEmpty then
      match insert_hco_affiliation_record s (pyToStr selected_id) hco_data true with
      | (.newId oid, s1) => hco_pointer_update s1 selected_id (.pint oid)
      | (.ok, s1) => hco_pointer_update s1 selected_id (.pstr hco_id)
      | (.failed, s1) =>
        ((false, none, "Failed to create outlet affiliation record."), s1)
    else
      hco_pointer_update s selected_id (.pstr hco_id)

/- ### Affiliation Merger, modelled from the spec (§4.3) -/

/-- Modelled from the spec: the identity fields of the entity being
enriched, as the self-affiliation exclusion consults them
(`build_affiliations_dict` lives in components/affiliation_table.py,
which is not among the source files; only its caller in
src/components/enrichment_page.py is). -/
structure Entity where
  name : String
  address : String
  deriving DecidableEq, Repr

/-- Modelled from the spec: an affiliation candidate with its
identity fields and provenance tag (`"database"` or
`"generated-by-ai"`). -/
structure Candidate where
  ident : String
  name : String
  address : String
  city : String
  state : String
  zip : String
  provenance : String
  deriving DecidableEq, Repr

/-- Modelled from the spec: the §4.1 normalizer applied to a string
field, with `"N/A"` as the ABSENT marker (the source's
`get_safe_value` normalization). -/
def spec_norm (s : String) : String :=
  get_safe_value_norm (.pstr s)

/-- A field whose normalization is the ABSENT marker. -/
def is_absent (s : String) : Bool :=
  spec_norm s = "N/A"

/-- Modelled from the spec: the well-known "unknown" identifier
sentinel of §4.3 step 2. -/
def unknown_sentinel : String := "unknown"

/-- Modelled from the spec (§4.3 step 1): the composite key — the
identifier when non-ABSENT and non-placeholder, else the
normalized-name + normalized-city/state/zip concatenation. -/
def composite_key (c : Candidate) : String :=
  if ¬is_absent c.ident ∧ c.ident ≠ unknown_sentinel then c.ident
  else spec_norm c.name ++ spec_norm c.city ++ spec_norm c.state ++ spec_norm c.zip

/-- Modelled from the spec (§4.3 step 2): a candidate whose
normalized name AND normalized address both match the entity being
enriched. -/
def self_matches (e : Entity) (c : Candidate) : Bool :=
  (spec_norm c.name == spec_norm e.name) &&
    (spec_norm c.address == spec_norm e.address)

/-- Modelled from the spec (§4.3 step 2): an AI candidate is
discarded when its identifier is the unknown sentinel or it
self-matches the entity being enriched. -/
def ai_excluded (e : Entity) (c : Candidate) : Bool :=
  (c.ident == unknown_sentinel) || self_matches e c

/-- Modelled from the spec (§4.3 step 3): merge an AI candidate into
an existing entry field by field, preferring the existing value for
any non-ABSENT field and keeping the existing provenance. -/
def fill_field (existing incoming : String) : String :=
  if ¬is_absent existing then existing else incoming

/-- Field-by-field merge keeping the existing provenance. -/
def merge_candidate (existing incoming : Candidate) : Candidate :=
  { ident := fill_field existing.ident incoming.ident
    name := fill_field existing.name incoming.name
    address := fill_field existing.address incoming.address
    city := fill_field existing.city incoming.city
    state := fill_field existing.state incoming.state
    zip := fill_field existing.zip incoming.zip
    provenance := existing.provenance }

/-- Modelled from the spec (§4.3 step 3): insert a database candidate
into the result mapping, keyed by composite key. -/
def insert_db_candidate (acc : List (String × Candidate)) (c : Candidate) :
    List (String × Candidate) :=
  dictSet acc (composite_key c) c

/-- Modelled from the spec (§4.3 step 3): insert an AI candidate —
on key collision merge into the existing entry, otherwise append. -/
def insert_ai_candidate (acc : List (String × Candidate)) (c : Candidate) :
    List (String × Candidate) :=
  let k := composite_key c
  if (acc.find? (fun p => p.1 = k)).isSome then
    acc.map (fun p => if p.1 = k then (k, merge_candidate p.2 c) else p)
  else acc ++ [(k, c)]

/-- Modelled from the spec (§4.3): `build_affiliations_dict` — tag
database rows with provenance `"database"` and insert them first;
tag AI rows with `"generated-by-ai"`, discard excluded ones (unknown
sentinel or self-match), and insert the rest. -/
def build_affiliations_dict (db_candidates ai_candidates : List Candidate)
    (self_entity : Entity) : List (String × Candidate) :=
  let dbEntries := (db_candidates.map
    (fun c => { c with provenance := "database" })).foldl insert_db_candidate []
  let aiKept := (ai_candidates.map
    (fun c => { c with provenance := "generated-by-ai" })).filter
      (fun c => !ai_excluded self_entity c)
  aiKept.foldl insert_ai_candidate dbEntries

/- ### Lemmas about stripping -/

theorem dropWhile_idem (p : Char → Bool) (l : List Char) :
    (l.dropWhile p).dropWhile p = l.dropWhile p := by
  induction l with
  | nil => rfl
  | cons a t ih =>
    by_cases h : p a
    · simp [List.dropWhile, h, ih]
    · simp [List.dropWhile, h]

theorem dropWhile_of_initial_seg (p : Char → Bool) {t m : List Char}
    (hm : m.dropWhile p = m) (hpre : t <+: m) : t.dropWhile p = t := by
  cases t with
  | nil => rfl
  | cons a t' =>
    cases m with
    | nil => exact absurd (List.eq_nil_of_prefix_nil hpre) (by simp)
    | cons b m' =>
      obtain ⟨r, hr⟩ := hpre
      simp only [List.cons_append, List.cons.injEq] at hr
      obtain ⟨hab, -⟩ := hr
      subst hab
      by_cases h : p a
      · exfalso
        rw [List.dropWhile_cons, if_pos h] at hm
        have := congrArg List.length hm
        have hlen : (m'.dropWhile p).length ≤ m'.length :=
          (List.dropWhile_sublist p).length_le
        simp at this
        omega
      · rw [List.dropWhile_cons, if_neg h]

theorem dropRightWhileCh_initial_seg (p : Char → Bool) (l : List Char) :
    dropRightWhileCh p l <+: l := by
  unfold dropRightWhileCh
  have h : (l.reverse.dropWhile p) <:+ l.reverse := List.dropWhile_suffix p
  obtain ⟨t, ht⟩ := h
  refine ⟨t.reverse, ?_⟩
  have := congrArg List.reverse ht
  simpa using this

theorem stripChars_dropWhile (l : List Char) :
    (stripChars l).dropWhile pySpace = stripChars l := by
  unfold stripChars
  exact dropWhile_of_initial_seg pySpace (dropWhile_idem pySpace l)
    (dropRightWhileCh_initial_seg pySpace (l.dropWhile pySpace))

theorem dropRightWhileCh_idem (p : Char → Bool) (l : List Char) :
    dropRightWhileCh p (dropRightWhileCh p l) = dropRightWhileCh p l := by
  unfold dropRightWhileCh
  rw [List.reverse_reverse, dropWhile_idem]

theorem stripChars_idem (l : List Char) :
    stripChars (stripChars l) = stripChars l := by
  have h1 : (stripChars l).dropWhile pySpace = stripChars l :=
    stripChars_dropWhile l
  show dropRightWhileCh pySpace ((stripChars l).dropWhile pySpace) = stripChars l
  rw [h1]
  exact dropRightWhileCh_idem pySpace (l.dropWhile pySpace)

theorem pyStrip_idem (s : String) : pyStrip (pyStrip s) = pyStrip s := by
  unfold pyStrip
  exact congrArg String.mk (stripChars_idem s.data)

theorem dropWhile_eq_self_of_none (p : Char → Bool) (l : List Char)
    (h : ∀ c ∈ l, p c = false) : l.dropWhile p = l := by
  cases l with
  | nil => rfl
  | cons a t => rw [List.dropWhile_cons, if_neg (by simp [h a (by simp)])]

theorem stripChars_eq_self_of_none (l : List Char)
    (h : ∀ c ∈ l, pySpace c = false) : stripChars l = l := by
  unfold stripChars dropRightWhileCh
  rw [dropWhile_eq_self_of_none _ _ h,
      dropWhile_eq_self_of_none _ _ (by intro c hc; exact h c (by simpa using hc)),
      List.reverse_reverse]

theorem natCharsGo_ne_nil (fuel n : Nat) (h : fuel ≠ 0) :
    natCharsGo fuel n ≠ [] := by
  cases fuel with
  | zero => exact absurd rfl h
  | succ f =>
    rw [natCharsGo]
    split
    · simp
    · simp

theorem natChars_ne_nil (n : Nat) : natChars n ≠ [] :=
  natCharsGo_ne_nil (n + 1) n (by omega)

theorem digitCh_not_space (n : Nat) : pySpace (digitCh n) = false := by
  unfold digitCh
  split <;> decide

theorem natCharsGo_not_space (fuel : Nat) :
    ∀ n, ∀ c ∈ natCharsGo fuel n, pySpace c = false := by
  induction fuel with
  | zero => intro n c hc; simp [natCharsGo] at hc
  | succ f ih =>
    intro n c hc
    rw [natCharsGo] at hc
    by_cases h : n < 10
    · rw [if_pos h] at hc
      simp at hc
      subst hc
      exact digitCh_not_space n
    · rw [if_neg h] at hc
      rcases List.mem_append.mp hc with h1 | h2
      · exact ih (n / 10) c h1
      · simp at h2
        subst h2
        exact digitCh_not_space (n % 10)

theorem natChars_not_space (n : Nat) :
    ∀ c ∈ natChars n, pySpace c = false :=
  natCharsGo_not_space (n + 1) n

theorem pyStrip_intStr (i : Int) : pyStrip (intStr i) = intStr i := by
  unfold pyStrip intStr
  split
  · refine congrArg String.mk (stripChars_eq_self_of_none _ ?_)
    intro c hc
    simp at hc
    rcases hc with hc | hc
    · subst hc; rfl
    · exact natChars_not_space _ c hc
  · refine congrArg String.mk (stripChars_eq_self_of_none _ ?_)
    intro c hc
    simp at hc
    exact natChars_not_space _ c hc

theorem intStr_ne_empty (i : Int) : intStr i ≠ "" := by
  unfold intStr
  split
  · intro h
    exact absurd (congrArg String.data h) (by simp)
  · intro h
    have h2 : natChars i.natAbs = [] := by
      have := congrArg String.data h
      simpa using this
    exact natChars_ne_nil _ h2

/-- C3, counterexample: the comparison-table normalizer `get_val` is
not idempotent — a whitespace-only non-empty string normalizes to the
empty string, which re-normalizes to `"N/A"`. -/
theorem get_val_norm_not_idempotent :
    get_val_norm (.pstr (get_val_norm (.pstr " "))) ≠ get_val_norm (.pstr " ") := by
  decide

/-- C3, amended: the detail-layout normalizer `get_safe_value` is
idempotent on every value, and the comparison-table normalizer
`get_val` is idempotent on every value except non-empty strings that
strip to empty (where the raw value's truthiness is tested before
stripping). -/
theorem normalizer_idempotent_amended (x : PyVal) :
    get_safe_value_norm (.pstr (get_safe_value_norm x)) = get_safe_value_norm x ∧
      (get_val_idem_domain x →
        get_val_norm (.pstr (get_val_norm x)) = get_val_norm x) := by
  constructor
  · cases x with
    | pnone => decide
    | pnan => decide
    | pstr s =>
      have e1 : get_safe_value_norm (.pstr s) =
          if pyStrip s ≠ "" then pyStrip s else "N/A" := rfl
      rw [e1]
      by_cases h : pyStrip s = ""
      · rw [h]
        simp only [ne_eq, not_true_eq_false, if_false]
        decide
      · rw [if_pos h]
        have e3 : get_safe_value_norm (.pstr (pyStrip s)) =
            if pyStrip (pyStrip s) ≠ "" then pyStrip (pyStrip s) else "N/A" := rfl
        rw [e3, pyStrip_idem, if_pos h]
    | pint n =>
      have e1 : get_safe_value_norm (.pint n) =
          if pyStrip (intStr n) ≠ "" then pyStrip (intStr n) else "N/A" := rfl
      rw [e1, pyStrip_intStr, if_pos (intStr_ne_empty n)]
      have e3 : get_safe_value_norm (.pstr (intStr n)) =
          if pyStrip (intStr n) ≠ "" then pyStrip (intStr n) else "N/A" := rfl
      rw [e3, pyStrip_intStr, if_pos (intStr_ne_empty n)]
  · intro hdom
    cases x with
    | pnone => decide
    | pnan => decide
    | pstr s =>
      by_cases hs : s = ""
      · subst hs; decide
      · rcases hdom with h | h
        · exact absurd h hs
        · have e2 : get_val_norm (.pstr s) =
              if pyTruthy (.pstr s) = true then pyStrip s else "N/A" := rfl
          have ht : pyTruthy (.pstr s) = true := by simp [pyTruthy, hs]
          rw [e2, if_pos ht]
          have e3 : get_val_norm (.pstr (pyStrip s)) =
              if pyTruthy (.pstr (pyStrip s)) = true then pyStrip (pyStrip s) else "N/A" := rfl
          have ht2 : pyTruthy (.pstr (pyStrip s)) = true := by simp [pyTruthy, h]
          rw [e3, if_pos ht2]
          exact pyStrip_idem s
    | pint n =>
      by_cases hn : n = 0
      · subst hn; decide
      · have e2 : get_val_norm (.pint n) =
            if pyTruthy (.pint n) = true then pyStrip (intStr n) else "N/A" := rfl
        have ht : pyTruthy (.pint n) = true := by simp [pyTruthy, hn]
        rw [e2, if_pos ht, pyStrip_intStr]
        have e3 : get_val_norm (.pstr (intStr n)) =
            if pyTruthy (.pstr (intStr n)) = true then pyStrip (intStr n) else "N/A" := rfl
        have ht2 : pyTruthy (.pstr (intStr n)) = true := by
          simp [pyTruthy, intStr_ne_empty]
        rw [e3, if_pos ht2]
        exact pyStrip_intStr n

theorem map_eq_self_of_eq_id {α : Type} (l : List α) (f : α → α)
    (h : ∀ x ∈ l, f x = x) : l.map f = l := by
  induction l with
  | nil => rfl
  | cons a t ih =>
    simp only [List.map_cons, h a (by simp)]
    rw [ih (fun x hx => h x (by simp [hx]))]

/-- C4: committing with an empty approved-field set fails with a
"nothing to do" message on both the insert path and the update path,
and the storage state is returned untouched (no storage operation is
issued). -/
theorem commit_empty_approved_fields_noop (db : DB) (entity_type : String)
    (record_id : PyVal) (proposed : List (String × PyVal)) :
    insert_record db entity_type [] proposed =
        ((false, none, "No fields were selected for insert."), db) ∧
      update_record db entity_type record_id [] proposed =
        ((false, "No fields were selected for update."), db) := by
  constructor <;> rfl

/-- C8: on the Provider (HCP) insert path, whenever the approved
fields resolve to at least one storable column, the generated
identifier is the integer successor of the current maximum numeric
identifier in the NPI table (`COALESCE(MAX(ID), 0) + 1`). -/
theorem insert_hcp_generates_successor_id (db : DB)
    (approved_cols : List String) (proposed : List (String × PyVal))
    (h0 : approved_cols ≠ [])
    (h1 : build_assignments HCP_FIELD_MAPPING approved_cols proposed ≠ []) :
    (insert_record db "HCP" approved_cols proposed).1.1 = true ∧
      (insert_record db "HCP" approved_cols proposed).1.2.1 =
        some (.rint (npi_max_id db + 1)) := by
  have hmap : get_field_to_db_mapping "HCP" = HCP_FIELD_MAPPING := rfl
  simp only [insert_record, hmap]
  rw [if_neg h0, if_neg h1]
  simp only [if_true]
  exact ⟨trivial, trivial⟩

/-- C8, witness: with an existing maximum identifier 1042 the new
Provider identifier is the integer 1043. -/
theorem insert_hcp_generates_successor_id_witness :
    (insert_record ⟨[[("ID", SqlVal.int 1042)]], []⟩ "HCP" ["Name"]
          [("Name", PyVal.pstr "Jane")]).1.1 = true ∧
      (insert_record ⟨[[("ID", SqlVal.int 1042)]], []⟩ "HCP" ["Name"]
          [("Name", PyVal.pstr "Jane")]).1.2.1 = some (.rint 1043) := by
  have h := insert_hcp_generates_successor_id ⟨[[("ID", SqlVal.int 1042)]], []⟩
    ["Name"] [("Name", PyVal.pstr "Jane")] (by decide) (by decide)
  exact ⟨h.1, h.2.trans (by decide)⟩

/-- C6: an update whose identifier matches zero stored rows returns
the not-found failure result (success flag `false` with a message)
instead of raising, whenever the approved fields resolve to at least
one storable column. -/
theorem update_nonexistent_id_not_found (db : DB) (entity_type : String)
    (record_id : PyVal) (approved_cols : List String)
    (proposed : List (String × PyVal))
    (h0 : approved_cols ≠ [])
    (h1 : build_assignments (get_field_to_db_mapping entity_type)
            approved_cols proposed ≠ [])
    (h2 : ∀ r ∈ target_table db entity_type,
            row_matches_id r (pyToSql record_id) = false) :
    (update_record db entity_type record_id approved_cols proposed).1 =
      (false, "Record for ID " ++ pyToStr record_id ++
        " was not found for update.") := by
  have hfilter : (target_table db entity_type).filter
      (fun r => row_matches_id r (pyToSql record_id)) = [] := by
    rw [List.filter_eq_nil_iff]
    intro r hr
    simp [h2 r hr]
  simp only [update_record]
  rw [if_neg h0, if_neg h1, hfilter]
  rfl

/-- C6, witness: updating a Provider record by an identifier absent
from the table reports the not-found failure. -/
theorem update_nonexistent_id_not_found_witness :
    (update_record ⟨[[("ID", SqlVal.int 7)]], []⟩ "HCP" (PyVal.pint 8)
        ["Name"] [("Name", PyVal.pstr "Jo")]).1 =
      (false, "Record for ID 8 was not found for update.") := by
  have h := update_nonexistent_id_not_found ⟨[[("ID", SqlVal.int 7)]], []⟩
    "HCP" (PyVal.pint 8) ["Name"] [("Name", PyVal.pstr "Jo")]
    (by decide) (by decide) (by decide)
  exact h.trans (by decide)

/-- C2: at the failing input — an HCO table whose only id is
`SHA_000000005` — two successive Organization inserts both generate
the identifier `AISEARCH_000000006`: the second generated suffix is
not strictly greater than the first, because the MAX query scans only
`'SHA_'`-prefixed ids while generated ids carry the `'AISEARCH_'`
prefix and are therefore never seen by later inserts. -/
theorem hco_insert_id_not_monotonic :
    (insert_record ⟨[], [[("ID", SqlVal.str "SHA_000000005")]]⟩ "HCO" ["Name"]
        [("Name", PyVal.pstr "Acme")]).1.2.1 =
          some (.rstr "AISEARCH_000000006") ∧
      (insert_record (insert_record ⟨[], [[("ID", SqlVal.str "SHA_000000005")]]⟩
            "HCO" ["Name"] [("Name", PyVal.pstr "Acme")]).2 "HCO" ["Name"]
        [("Name", PyVal.pstr "Acme")]).1.2.1 =
          some (.rstr "AISEARCH_000000006") := by
  constructor <;> rfl

/-- C3, witness: the amended idempotence applied at the concrete
value `"  x "`. -/
theorem normalizer_idempotent_amended_witness :
    get_safe_value_norm (.pstr (get_safe_value_norm (.pstr "  x "))) =
        get_safe_value_norm (.pstr "  x ") ∧
      get_val_norm (.pstr (get_val_norm (.pstr "  x "))) = get_val_norm (.pstr "  x ") :=
  ⟨(normalizer_idempotent_amended (.pstr "  x ")).1,
    (normalizer_idempotent_amended (.pstr "  x ")).2 (Or.inr (by decide))⟩

/- ### Affiliation commit (C1) -/

theorem hcp_pointer_update_affTab (s : StewState) (sid : PyVal) (fid : String) :
    ((hcp_pointer_update s sid fid).2).affTab = s.affTab := by
  simp only [hcp_pointer_update, update_hcp_primary_affiliation]
  split <;> rfl

theorem count_affiliations_congr {s t : StewState} (h : s.affTab = t.affTab)
    (npi hco_id : String) :
    count_affiliations s npi hco_id = count_affiliations t npi hco_id := by
  simp [count_affiliations, h]

theorem insert_hcp_aff_no_gen_count (s : StewState) (hcp_id hcp_npi : String)
    (hco_data : List (String × String)) (hco_id : String)
    (hdataid : dictGetD hco_data "HCO ID" (dictGetD hco_data "HCO_ID" "") = hco_id)
    (hnogen : strStartsWith hco_id "ai_generated_" = false)
    (hidne : hco_id ≠ "")
    (hacct : hcp_id = "" ∨ sqlCastInt hcp_id ≠ none) :
    count_affiliations
        (insert_hcp_affiliation_record s hcp_id hcp_npi hco_data false).2
        hcp_npi hco_id =
      count_affiliations s hcp_npi hco_id + 1 := by
  have hvalid : ¬(hcp_id ≠ "" ∧ sqlCastInt hcp_id = none) := by
    rcases hacct with h | h
    · exact fun hc => hc.1 h
    · exact fun hc => h hc.2
  simp only [insert_hcp_affiliation_record, hdataid, hnogen, Bool.false_or,
    Bool.or_false, hidne, decide_False, if_false]
  rw [if_neg hvalid]
  simp [count_affiliations, List.filter_append]

/-- C1, counterexample: committing the same AI-sourced affiliation
candidate twice for the same entity (here the numeric entity id 101,
so the unquoted `HCP_ACCT_ID` interpolation is well-formed and the
inserts succeed) is not idempotent — each commit generates a fresh
identifier and inserts a fresh row, so after two commits the
affiliation table holds two rows for the same entity and candidate,
and the second commit is not a no-op. -/
theorem ai_affiliation_recommit_duplicates :
    ((set_primary_affiliation
        (set_primary_affiliation ⟨[], [], [[("ID", SqlVal.int 101)]], []⟩ "HCP"
          [("ID", PyVal.pint 101), ("NPI", PyVal.pstr "123")]
          [("SOURCE", "Generated by AI"), ("HCO NAME", "Acme")]
          "ai_generated_1" false).2 "HCP"
        [("ID", PyVal.pint 101), ("NPI", PyVal.pstr "123")]
        [("SOURCE", "Generated by AI"), ("HCO NAME", "Acme")]
        "ai_generated_1" false).2.affTab.filter
      (fun r => r.npi = "123" ∧ r.name = "Acme")).length = 2 := by
  decide

/-- C1, amended: the existence-check idempotence holds for the
database-sourced commit path: for an HCP entity with a non-empty NPI
and an empty-or-numeric stringified entity id (so the unquoted
`HCP_ACCT_ID` interpolation is well-formed and the insert succeeds),
a non-`ai_generated` candidate carrying a non-empty identifier, and
the new-record flag set, committing the same candidate twice leaves
exactly one affiliation row for the (NPI, HCO id) pairing — the
second commit's insert is skipped by `check_affiliation_exists`.
AI-sourced candidates are instead re-inserted with a fresh generated
identifier on every commit. -/
theorem db_affiliation_recommit_idempotent (s : StewState)
    (selected_record : List (String × PyVal))
    (hco_data : List (String × String)) (hco_id : String)
    (hnpi : pyToStr (dictGetD selected_record "NPI" (.pstr "")) ≠ "")
    (hacct : pyToStr (dictGetD selected_record "ID" (.pstr "")) = "" ∨
      sqlCastInt (pyToStr (dictGetD selected_record "ID" (.pstr ""))) ≠ none)
    (hid : hco_id ≠ "")
    (hai : (strStartsWith hco_id "ai_generated_" ||
      (dictGet? hco_data "SOURCE" == some "Generated by AI") ||
      (asciiLower (dictGetD hco_data "SOURCE" "") == "generated by ai")) = false)
    (hdata : hco_data ≠ [])
    (hdataid : dictGetD hco_data "HCO ID" (dictGetD hco_data "HCO_ID" "") = hco_id)
    (h0 : count_affiliations s
      (pyToStr (dictGetD selected_record "NPI" (.pstr ""))) hco_id = 0) :
    count_affiliations
        (set_primary_affiliation
          (set_primary_affiliation s "HCP" selected_record hco_data hco_id true).2
          "HCP" selected_record hco_data hco_id true).2
        (pyToStr (dictGetD selected_record "NPI" (.pstr ""))) hco_id = 1 := by
  have hnogen : strStartsWith hco_id "ai_generated_" = false := by
    rcases Bool.or_eq_false_iff.mp hai with ⟨h1, -⟩
    exact (Bool.or_eq_false_iff.mp h1).1
  have hempty : hco_data.isEmpty = false := by
    cases hco_data with
    | nil => exact absurd rfl hdata
    | cons a t => rfl
  have hred : ∀ (t : StewState) (b : Bool),
      check_affiliation_exists t
        (pyToStr (dictGetD selected_record "NPI" (.pstr ""))) hco_id = b →
      set_primary_affiliation t "HCP" selected_record hco_data hco_id true =
        hcp_pointer_update
          (if !b then
            (insert_hcp_affiliation_record t
              (pyToStr (dictGetD selected_record "ID" (.pstr "")))
              (pyToStr (dictGetD selected_record "NPI" (.pstr "")))
              hco_data false).2
          else t)
          (dictGetD selected_record "ID" (.pstr "")) hco_id := by
    intro t b hch
    simp only [set_primary_affiliation, hai, hempty, hch, Bool.false_and,
      Bool.not_false, Bool.and_true, Bool.and_false, Bool.true_and,
      Bool.false_eq_true, if_false, if_true]
  have hch0 : check_affiliation_exists s
      (pyToStr (dictGetD selected_record "NPI" (.pstr ""))) hco_id = false := by
    unfold check_affiliation_exists
    rw [if_neg (by push_neg; exact ⟨hnpi, hid⟩)]
    simp [h0]
  have hs1aff : (set_primary_affiliation s "HCP" selected_record hco_data
      hco_id true).2.affTab =
      (insert_hcp_affiliation_record s
        (pyToStr (dictGetD selected_record "ID" (.pstr "")))
        (pyToStr (dictGetD selected_record "NPI" (.pstr "")))
        hco_data false).2.affTab := by
    rw [hred s false hch0]
    simp only [Bool.not_false, if_true]
    exact hcp_pointer_update_affTab _ _ _
  have hcount1 : count_affiliations
      (set_primary_affiliation s "HCP" selected_record hco_data hco_id true).2
      (pyToStr (dictGetD selected_record "NPI" (.pstr ""))) hco_id = 1 := by
    rw [count_affiliations_congr hs1aff]
    rw [insert_hcp_aff_no_gen_count s _ _ hco_data hco_id hdataid hnogen hid hacct,
      h0]
  have hch1 : check_affiliation_exists
      (set_primary_affiliation s "HCP" selected_record hco_data hco_id true).2
      (pyToStr (dictGetD selected_record "NPI" (.pstr ""))) hco_id = true := by
    unfold check_affiliation_exists
    rw [if_neg (by push_neg; exact ⟨hnpi, hid⟩)]
    simp [hcount1]
  rw [hred _ true hch1]
  simp only [Bool.not_true, if_false]
  rw [count_affiliations_congr (hcp_pointer_update_affTab _ _ _)]
  exact hcount1

/-- C1, witness: the amended idempotence at a concrete state — the
entity with numeric id 101 and NPI `777` committing the
database-sourced candidate `H9` twice ends with exactly one
`(777, H9)` affiliation row. -/
theorem db_affiliation_recommit_idempotent_witness :
    count_affiliations
        (set_primary_affiliation
          (set_primary_affiliation ⟨[], [], [[("ID", SqlVal.int 101)]], []⟩
            "HCP" [("ID", PyVal.pint 101), ("NPI", PyVal.pstr "777")]
            [("HCO ID", "H9"), ("HCO NAME", "Gen")] "H9" true).2
          "HCP" [("ID", PyVal.pint 101), ("NPI", PyVal.pstr "777")]
          [("HCO ID", "H9"), ("HCO NAME", "Gen")] "H9" true).2
        (pyToStr (dictGetD [("ID", PyVal.pint 101), ("NPI", PyVal.pstr "777")]
          "NPI" (.pstr ""))) "H9" = 1 :=
  db_affiliation_recommit_idempotent ⟨[], [], [[("ID", SqlVal.int 101)]], []⟩
    [("ID", PyVal.pint 101), ("NPI", PyVal.pstr "777")]
    [("HCO ID", "H9"), ("HCO NAME", "Gen")] "H9"
    (by decide) (by decide) (by decide) (by decide) (by decide) (by decide)
    (by decide)

/- ### Affiliation Merger (C7) -/

theorem insert_db_fold_prov (l : List Candidate) :
    ∀ acc, (∀ c ∈ l, c.provenance = "database") →
      (∀ kv ∈ acc, kv.2.provenance = "database") →
      ∀ kv ∈ l.foldl insert_db_candidate acc, kv.2.provenance = "database" := by
  induction l with
  | nil => intro acc _ hacc kv hkv; exact hacc kv hkv
  | cons c t ih =>
    intro acc hl hacc kv hkv
    simp only [List.foldl_cons] at hkv
    refine ih _ (fun c' hc' => hl c' (by simp [hc'])) ?_ kv hkv
    intro kv' hkv'
    simp only [insert_db_candidate, dictSet] at hkv'
    by_cases hfind : (acc.find? (fun p => p.1 = composite_key c)).isSome
    · rw [if_pos hfind] at hkv'
      rcases List.mem_map.mp hkv' with ⟨p, hp, rfl⟩
      by_cases hpk : p.1 = composite_key c
      · rw [if_pos hpk]
        exact hl c (by simp)
      · rw [if_neg hpk]
        exact hacc p hp
    · rw [if_neg hfind] at hkv'
      rcases List.mem_append.mp hkv' with h | h
      · exact hacc _ h
      · simp only [List.mem_singleton] at h
        subst h
        exact hl c (by simp)

theorem insert_ai_fold_inv (e : Entity) (l : List Candidate) :
    ∀ acc,
      (∀ c ∈ l, ai_excluded e c = false) →
      (l.map composite_key).Nodup →
      (∀ kv ∈ acc, kv.2.provenance = "generated-by-ai" →
        ai_excluded e kv.2 = false ∧ kv.1 ∉ l.map composite_key) →
      ∀ kv ∈ l.foldl insert_ai_candidate acc,
        kv.2.provenance = "generated-by-ai" → ai_excluded e kv.2 = false := by
  induction l with
  | nil => intro acc _ _ hacc kv hkv hprov; exact (hacc kv hkv hprov).1
  | cons c t ih =>
    intro acc hexc hnodup hacc kv hkv hprov
    rw [List.map_cons, List.nodup_cons] at hnodup
    simp only [List.foldl_cons] at hkv
    refine ih (insert_ai_candidate acc c)
      (fun c' hc' => hexc c' (by simp [hc'])) hnodup.2 ?_ kv hkv hprov
    intro kv' hkv' hprov'
    simp only [insert_ai_candidate] at hkv'
    by_cases hfind : (acc.find? (fun p => p.1 = composite_key c)).isSome
    · rw [if_pos hfind] at hkv'
      rcases List.mem_map.mp hkv' with ⟨p, hp, rfl⟩
      by_cases hpk : p.1 = composite_key c
      · rw [if_pos hpk] at hprov' ⊢
        simp only [merge_candidate] at hprov'
        have hinv := hacc p hp hprov'
        exact (hinv.2 (by rw [hpk]; exact List.mem_map_of_mem _ (by simp))).elim
      · rw [if_neg hpk] at hprov' ⊢
        have hinv := hacc p hp hprov'
        refine ⟨hinv.1, fun hmem => hinv.2 ?_⟩
        simp only [List.map_cons, List.mem_cons]
        exact Or.inr hmem
    · rw [if_neg hfind] at hkv'
      rcases List.mem_append.mp hkv' with h | h
      · have hinv := hacc kv' h hprov'
        refine ⟨hinv.1, fun hmem => hinv.2 ?_⟩
        simp only [List.map_cons, List.mem_cons]
        exact Or.inr hmem
      · simp only [List.mem_singleton] at h
        subst h
        refine ⟨hexc c (by simp), ?_⟩
        exact hnodup.1

/-- C7: in the spec-modelled Affiliation Merger, no AI-sourced entry
of the merged mapping carries the "unknown" identifier sentinel or
self-matches the entity being enriched (same normalized name and
normalized address): the merged mapping never lists the entity as its
own affiliation. Stated for AI candidate lists with pairwise distinct
composite keys, as produced by a mapping-valued web-research
response. -/
theorem merge_excludes_self_affiliation
    (db_candidates ai_candidates : List Candidate) (self_entity : Entity)
    (hkeys : (ai_candidates.map composite_key).Nodup) :
    ∀ kv ∈ build_affiliations_dict db_candidates ai_candidates self_entity,
      kv.2.provenance = "generated-by-ai" →
        kv.2.ident ≠ unknown_sentinel ∧
          self_matches self_entity kv.2 = false := by
  intro kv hkv hprov
  have hdb : ∀ kv' ∈ (db_candidates.map
      (fun c => { c with provenance := "database" })).foldl insert_db_candidate [],
      kv'.2.provenance = "database" := by
    refine insert_db_fold_prov _ [] ?_ (by simp)
    intro c hc
    rcases List.mem_map.mp hc with ⟨c0, -, rfl⟩
    rfl
  have hexc : ∀ c ∈ (ai_candidates.map
      (fun c => { c with provenance := "generated-by-ai" })).filter
        (fun c => !ai_excluded self_entity c),
      ai_excluded self_entity c = false := by
    intro c hc
    have := (List.mem_filter.mp hc).2
    simpa using this
  have hkeysKept : (((ai_candidates.map
      (fun c => { c with provenance := "generated-by-ai" })).filter
        (fun c => !ai_excluded self_entity c)).map composite_key).Nodup := by
    have htag : (ai_candidates.map
        (fun c => { c with provenance := "generated-by-ai" })).map composite_key =
        ai_candidates.map composite_key := by
      rw [List.map_map]
      exact List.map_congr_left (fun c _ => rfl)
    have hsub := (List.filter_sublist (l :=
      ai_candidates.map (fun c => { c with provenance := "generated-by-ai" }))
      (p := fun c => !ai_excluded self_entity c)).map composite_key
    exact hsub.nodup (htag ▸ hkeys)
  have hmem : kv ∈ ((ai_candidates.map
      (fun c => { c with provenance := "generated-by-ai" })).filter
        (fun c => !ai_excluded self_entity c)).foldl insert_ai_candidate
      ((db_candidates.map
        (fun c => { c with provenance := "database" })).foldl
          insert_db_candidate []) := hkv
  have hfinal := insert_ai_fold_inv self_entity _ _ hexc hkeysKept
    (fun kv' h' hprov' => absurd (by rw [hdb kv' h'] at hprov'; exact hprov')
      (by decide)) kv hmem hprov
  have hparts := Bool.or_eq_false_iff.mp hfinal
  constructor
  · intro hcontra
    have : (kv.2.ident == unknown_sentinel) = true := by
      rw [hcontra]; simp
    rw [this] at hparts
    exact absurd hparts.1 (by simp)
  · exact hparts.2

/-- C7, witness: a non-excluded AI candidate survives the merge and
neither carries the sentinel identifier nor self-matches the
entity. -/
theorem merge_excludes_self_affiliation_witness :
    ({ ident := "5", name := "Acme", address := "1 Way", city := "X",
        state := "Y", zip := "Z",
        provenance := "generated-by-ai" } : Candidate).ident ≠
        unknown_sentinel ∧
      self_matches ⟨"Other", "2 St"⟩
        { ident := "5", name := "Acme", address := "1 Way", city := "X",
          state := "Y", zip := "Z", provenance := "generated-by-ai" } = false :=
  merge_excludes_self_affiliation []
    [{ ident := "5", name := "Acme", address := "1 Way", city := "X",
       state := "Y", zip := "Z", provenance := "web" }] ⟨"Other", "2 St"⟩
    (by decide)
    ("5", { ident := "5", name := "Acme", address := "1 Way", city := "X",
            state := "Y", zip := "Z", provenance := "generated-by-ai" })
    (by decide) rfl

/- ### Ranking fallback (C5) -/

theorem find?_none_of_key_not_mem {α : Type} (d : List (String × α)) (k : String)
    (h : ∀ p ∈ d, p.1 ≠ k) : d.find? (fun p => p.1 = k) = none := by
  rw [List.find?_eq_none]
  intro x hx
  simp [h x hx]

theorem dictSet_append {α : Type} (d : List (String × α)) (k : String) (v : α)
    (h : ∀ p ∈ d, p.1 ≠ k) : dictSet d k v = d ++ [(k, v)] := by
  unfold dictSet
  rw [find?_none_of_key_not_mem d k h]
  rfl

theorem default_priorities_go {α : Type} (affs : List (String × α)) :
    ∀ (n : Nat) (acc : List (String × Nat × String)),
      (affs.map Prod.fst).Nodup →
      (∀ k ∈ affs.map Prod.fst, ∀ p ∈ acc, p.1 ≠ k) →
      (affs.enumFrom n).foldl
          (fun m p => dictSet m p.2.1 (p.1 + 1, defaultOrderingReason)) acc =
        acc ++ (affs.enumFrom n).map
          (fun p => (p.2.1, p.1 + 1, defaultOrderingReason)) := by
  induction affs with
  | nil => intro n acc _ _; simp [List.enumFrom]
  | cons hd t ih =>
    intro n acc hnodup hdisj
    simp only [List.enumFrom, List.foldl_cons, List.map_cons]
    rw [dictSet_append _ _ _ (fun p hp => hdisj hd.1 (by simp) p hp)]
    rw [ih (n + 1) (acc ++ [(hd.1, n + 1, defaultOrderingReason)])
      (by simpa using hnodup.of_cons)
      (by
        intro k hk p hp
        rcases List.mem_append.mp hp with hp | hp
        · exact hdisj k (by simp [hk]) p hp
        · simp at hp
          subst hp
          simp only [List.map_cons, List.nodup_cons] at hnodup
          intro hcontra
          exact hnodup.1 (hcontra ▸ hk))]
    simp

theorem default_priorities_eq {α : Type} (affs : List (String × α))
    (h : (affs.map Prod.fst).Nodup) :
    default_priorities affs =
      affs.enum.map (fun p => (p.2.1, p.1 + 1, defaultOrderingReason)) := by
  unfold default_priorities
  have hgo := default_priorities_go affs 0 [] h (by simp)
  simpa [List.enum] using hgo

/-- C5: when the single attempt against the ranking service fails
(service error or unparseable response), the returned priorities are
assigned by 1-based original iteration position — so for candidates
with distinct keys they are exactly `1, ..., n` in input order — and
every key carries the fixed default-ordering reason. Termination with
no retry is structural: the fallback is a pure function of the input
list and the one `attempt` outcome. -/
theorem rank_fallback_default_ordering {α : Type}
    (affiliations : List (String × α))
    (h1 : affiliations ≠ []) (h2 : (affiliations.map Prod.fst).Nodup) :
    (get_affiliation_priorities none affiliations).map Prod.fst =
        affiliations.map Prod.fst ∧
      (get_affiliation_priorities none affiliations).map (fun p => p.2.1) =
        List.range' 1 affiliations.length ∧
      ∀ p ∈ get_affiliation_priorities none affiliations,
        p.2.2 = defaultOrderingReason := by
  have hne : affiliations.isEmpty = false := by
    cases affiliations with
    | nil => exact absurd rfl h1
    | cons a t => rfl
  have hval : get_affiliation_priorities none affiliations =
      affiliations.enum.map (fun p => (p.2.1, p.1 + 1, defaultOrderingReason)) := by
    unfold get_affiliation_priorities
    rw [hne]
    simp only [Bool.false_eq_true, if_false]
    exact default_priorities_eq affiliations h2
  refine ⟨?_, ?_, ?_⟩
  · rw [hval, List.map_map]
    have : ((fun p : String × Nat × String => p.1) ∘
        (fun p : Nat × (String × α) => (p.2.1, p.1 + 1, defaultOrderingReason))) =
        Prod.fst ∘ (Prod.snd : Nat × (String × α) → String × α) := rfl
    rw [this, ← List.map_map, List.enum_map_snd]
  · rw [hval, List.map_map]
    have : ((fun p : String × Nat × String => p.2.1) ∘
        (fun p : Nat × (String × α) => (p.2.1, p.1 + 1, defaultOrderingReason))) =
        (fun n => n + 1) ∘ (Prod.fst : Nat × (String × α) → Nat) := rfl
    rw [this, ← List.map_map, List.enum_map_fst]
    rw [List.range'_eq_map_range]
    exact List.map_congr_left (fun n _ => Nat.add_comm n 1)
  · rw [hval]
    intro p hp
    rcases List.mem_map.mp hp with ⟨q, -, rfl⟩
    rfl

/-- C5, witness: three candidates and a failed attempt yield
priorities exactly 1, 2, 3 in original iteration order. -/
theorem rank_fallback_default_ordering_witness :
    (get_affiliation_priorities none
          [("k1", (0 : Nat)), ("k2", 0), ("k3", 0)]).map Prod.fst =
        ["k1", "k2", "k3"] ∧
      (get_affiliation_priorities none
          [("k1", (0 : Nat)), ("k2", 0), ("k3", 0)]).map (fun p => p.2.1) =
        [1, 2, 3] := by
  have h := rank_fallback_default_ordering
    [("k1", (0 : Nat)), ("k2", 0), ("k3", 0)] (by decide) (by decide)
  exact ⟨h.1, h.2.1⟩

/- ### Field-diff rows (C9) -/

/-- C9: the comparison-row loop yields exactly one row per
field-mapping entry, in the mapping's iteration order, and a key
missing from the current or proposed record produces the `"N/A"`
absent marker in that cell instead of failing. -/
theorem render_comparison_rows_shape (current proposed : List (String × PyVal))
    (field_mapping : List (String × String)) :
    (render_comparison_rows current proposed field_mapping).length =
        field_mapping.length ∧
      (render_comparison_rows current proposed field_mapping).map Prod.fst =
        field_mapping.map Prod.fst ∧
      ∀ pr ∈ (render_comparison_rows current proposed field_mapping).zip
          field_mapping,
        (dictGet? current pr.2.2 = none → pr.1.2.1 = PyVal.pstr "N/A") ∧
        (dictGet? proposed pr.2.2 = none → pr.1.2.2 = PyVal.pstr "N/A") := by
  refine ⟨by simp [render_comparison_rows], ?_, ?_⟩
  · unfold render_comparison_rows
    rw [List.map_map]
    exact List.map_congr_left (fun fm _ => rfl)
  · intro pr hpr
    have hz : (render_comparison_rows current proposed field_mapping).zip
        field_mapping = field_mapping.map (fun m =>
          (comparison_row current proposed m, m)) := by
      unfold render_comparison_rows
      nth_rewrite 2 [show field_mapping = field_mapping.map id from
        (List.map_id field_mapping).symm]
      rw [List.zip_map']
      rfl
    rw [hz] at hpr
    rcases List.mem_map.mp hpr with ⟨m, -, rfl⟩
    constructor
    · intro hc
      show comparison_cell current m.2 = PyVal.pstr "N/A"
      unfold comparison_cell
      by_cases hcur : current = []
      · rw [if_pos hcur]
        decide
      · rw [if_neg hcur, hc]
        decide
    · intro hp
      show comparison_cell proposed m.2 = PyVal.pstr "N/A"
      unfold comparison_cell
      by_cases hprop : proposed = []
      · rw [if_pos hprop]
        decide
      · rw [if_neg hprop, hp]
        decide

/-- C9, witness: with a one-entry mapping whose key is absent from
both records, the single row carries the absent marker in both
cells. -/
theorem render_comparison_rows_shape_witness :
    (render_comparison_rows [("X", PyVal.pstr "1")] [] [("L", "K")]).length =
        ([("L", "K")] : List (String × String)).length ∧
      (("L", PyVal.pstr "N/A", PyVal.pstr "N/A"), ("L", "K")).1.2.1 =
        PyVal.pstr "N/A" := by
  have h := render_comparison_rows_shape [("X", PyVal.pstr "1")] [] [("L", "K")]
  exact ⟨h.1, (h.2.2 (("L", PyVal.pstr "N/A", PyVal.pstr "N/A"), ("L", "K"))
    (by decide)).1 (by decide)⟩

/- ### Web-research list standardizer (C10) -/

theorem foldl_max_bounds (l : List Nat) :
    ∀ a : Nat, a ≤ l.foldl max a ∧ ∀ x ∈ l, x ≤ l.foldl max a := by
  induction l with
  | nil => intro a; exact ⟨Nat.le_refl a, by simp⟩
  | cons h t ih =>
    intro a
    refine ⟨Nat.le_trans (Nat.le_max_left a h) (ih (max a h)).1, ?_⟩
    intro x hx
    rcases List.mem_cons.mp hx with rfl | hmem
    · exact Nat.le_trans (Nat.le_max_right a x) (ih (max a x)).1
    · exact (ih (max a h)).2 x hmem

theorem mem_le_max_list_length (d : List (String × PerpVal)) :
    ∀ n ∈ valid_list_lengths d, n ≤ max_list_length d :=
  (foldl_max_bounds (valid_list_lengths d) 0).2

/-- C10: when the input has at least one non-empty list value,
`standardize_value_lengths` makes every list value's length equal to
the maximum length over the input's non-empty list values — an empty
list becomes that many `None` entries, a shorter non-empty list is
padded by repeating its own first element — while non-list entries
pass through unchanged; with no non-empty list value the dictionary
is returned unchanged. -/
theorem standardize_value_lengths_spec (d : List (String × PerpVal)) :
    (valid_list_lengths d = [] → standardize_value_lengths d = d) ∧
      (valid_list_lengths d ≠ [] →
        (∀ kv ∈ standardize_value_lengths d, ∀ l,
          kv.2 = PerpVal.plist l → l.length = max_list_length d) ∧
        (∀ kv ∈ d, (∃ v, kv.2 = PerpVal.patom v) →
          kv ∈ standardize_value_lengths d) ∧
        (∀ kv ∈ d, kv.2 = PerpVal.plist [] →
          (kv.1, PerpVal.plist (List.replicate (max_list_length d) PyVal.pnone)) ∈
            standardize_value_lengths d) ∧
        (∀ kv ∈ d, ∀ a t, kv.2 = PerpVal.plist (a :: t) →
          (a :: t).length < max_list_length d →
          (kv.1, PerpVal.plist ((a :: t) ++
              List.replicate (max_list_length d - (a :: t).length) a)) ∈
            standardize_value_lengths d)) := by
  constructor
  · intro h
    simp [standardize_value_lengths, h]
  · intro h
    have hunf : standardize_value_lengths d =
        d.map (pad_entry (max_list_length d)) := by
      unfold standardize_value_lengths
      rw [if_neg h]
    refine ⟨?_, ?_, ?_, ?_⟩
    · intro kv hkv l hl
      rw [hunf] at hkv
      rcases List.mem_map.mp hkv with ⟨⟨k0, v0⟩, hmem, rfl⟩
      match v0 with
      | .patom v => simp [pad_entry] at hl
      | .plist [] =>
        simp only [pad_entry] at hl
        cases hl
        simp
      | .plist (a :: t) =>
        by_cases hlt : (a :: t).length < max_list_length d
        · simp only [pad_entry, if_pos hlt] at hl
          cases hl
          simp only [List.length_append, List.length_replicate]
          omega
        · simp only [pad_entry, if_neg hlt] at hl
          cases hl
          have hmemlen : (a :: t).length ∈ valid_list_lengths d := by
            unfold valid_list_lengths
            refine List.mem_filterMap.mpr ⟨(k0, .plist (a :: t)), hmem, ?_⟩
            simp
          have := mem_le_max_list_length d _ hmemlen
          omega
    · intro kv hkv hv
      rw [hunf]
      obtain ⟨k0, v0⟩ := kv
      obtain ⟨v, hv⟩ := hv
      simp only at hv
      subst hv
      exact List.mem_map_of_mem _ hkv
    · intro kv hkv hv
      rw [hunf]
      obtain ⟨k0, v0⟩ := kv
      simp only at hv
      subst hv
      exact List.mem_map_of_mem _ hkv
    · intro kv hkv a t hv hlt
      rw [hunf]
      obtain ⟨k0, v0⟩ := kv
      simp only at hv
      subst hv
      have he : pad_entry (max_list_length d) (k0, PerpVal.plist (a :: t)) =
          (k0, PerpVal.plist ((a :: t) ++
            List.replicate (max_list_length d - (a :: t).length) a)) := by
        simp only [pad_entry]
        rw [if_pos hlt]
      rw [← he]
      exact List.mem_map_of_mem _ hkv

/-- C10, witness: on a dictionary with a two-element list and an
empty list, the empty list is padded to two `None` entries. -/
theorem standardize_value_lengths_spec_witness :
    ("b", PerpVal.plist (List.replicate
        (max_list_length [("a", PerpVal.plist [PyVal.pstr "x", PyVal.pstr "y"]),
          ("b", PerpVal.plist [])]) PyVal.pnone)) ∈
      standardize_value_lengths
        [("a", PerpVal.plist [PyVal.pstr "x", PyVal.pstr "y"]),
          ("b", PerpVal.plist [])] :=
  ((standardize_value_lengths_spec
      [("a", PerpVal.plist [PyVal.pstr "x", PyVal.pstr "y"]),
        ("b", PerpVal.plist [])]).2 (by decide)).2.2.1
    ("b", PerpVal.plist []) (by decide) rfl

end Steward
